import Mathlib

/-!
Verification of the transcript/aggregation service.

This file gives a shallow embedding of the service's core functions
(`parseWebVTT`, the transcript shape dispatch, `getTranscript`,
`getFormattedStreams`, the `/api/fetch` aggregator and the
`generateLlmReport` renderer) and proves the specification's testable
properties about them.

JavaScript numbers are modelled exactly by terminating decimal fractions
(`Dec`, a mantissa over a power of ten); `NaN` outcomes are modelled by
`Option`/a dedicated constructor.  JavaScript strings are Lean `String`s;
the string primitives the code relies on (`split`, `includes`, `trim`,
`parseInt`, `parseFloat`, number rendering) are implemented below over
`List Char` with structural recursion so that concrete runs reduce in the
kernel.  `parseFloat` is modelled for plain decimal notation (no exponent
notation), which covers every value the service ever feeds it.
-/

namespace YT

/-- Whitespace as recognised by the JavaScript string functions used here
(`trim`, `parseInt`, `parseFloat`); restricted to the ASCII whitespace the
service's data can contain. -/
def isWSChar (c : Char) : Bool :=
  c = ' ' || c = '\t' || c = '\n' || c = '\r'

/-- JavaScript truthiness of a possibly-absent string (absent and `""` are
falsy). -/
def jsTruthy (o : Option String) : Bool :=
  match o with
  | none => false
  | some s => !(s = "")

/-- JavaScript `a || b` for a possibly-absent string `a` with default `b`. -/
def jsOr (o : Option String) (d : String) : String :=
  if jsTruthy o then o.getD "" else d

/-- JavaScript `str.split(sep)` for a one-character separator. -/
def splitCharL (sep : Char) : List Char → List (List Char)
  | [] => [[]]
  | c :: rest =>
    let r := splitCharL sep rest
    if c = sep then [] :: r
    else
      match r with
      | [] => [[c]]
      | h :: t => (c :: h) :: t

/-- `str.split(sep)` for a one-character separator, on `String`. -/
def jsSplitChar (sep : Char) (s : String) : List String :=
  (splitCharL sep s.data).map fun l => ⟨l⟩

/-- JavaScript `str.includes(pat)` (contiguous substring test). -/
def jsIncludesL (pat : List Char) : List Char → Bool
  | [] => pat.isEmpty
  | c :: rest => pat.isPrefixOf (c :: rest) || jsIncludesL pat rest

/-- `str.includes(pat)` on `String`. -/
def jsIncludes (s pat : String) : Bool :=
  jsIncludesL pat.data s.data

/-- JavaScript `str.split(sep)[0]` for a multi-character separator: the part
of the string before the first occurrence of `sep` (the whole string when
`sep` does not occur). -/
def takeBeforeSepL (sep : List Char) : List Char → List Char
  | [] => []
  | c :: rest =>
    if sep.isPrefixOf (c :: rest) then []
    else c :: takeBeforeSepL sep rest

/-- `str.split(sep)[0]` on `String`. -/
def jsSplitHead (s sep : String) : String :=
  ⟨takeBeforeSepL sep.data s.data⟩

/-- JavaScript `str.startsWith(p)`. -/
def jsStartsWith (s p : String) : Bool :=
  p.data.isPrefixOf s.data

/-- JavaScript `str.trim()` in characters: drop trailing then leading
whitespace. -/
def trimCharsL (l : List Char) : List Char :=
  ((l.reverse.dropWhile isWSChar).reverse).dropWhile isWSChar

/-- JavaScript `str.trim()`. -/
def jsTrim (s : String) : String :=
  ⟨trimCharsL s.data⟩

/-- Numeric value of a decimal digit character. -/
def digitVal (c : Char) : Nat :=
  c.toNat - '0'.toNat

/-- Value of a run of decimal digit characters. -/
def digitsVal (l : List Char) : Nat :=
  l.foldl (fun acc c => acc * 10 + digitVal c) 0

/-- Exact decimal fraction `mant / 10 ^ exp`: the model of a JavaScript
number for this service (all numbers it manipulates are terminating
decimals). -/
structure Dec where
  mant : Int
  exp : Nat
deriving DecidableEq, Repr

namespace Dec

/-- Normalise by stripping factors of ten, making the representation of a
value unique (structural recursion on the exponent). -/
def normAux : Int → Nat → Dec
  | m, 0 => ⟨m, 0⟩
  | m, e + 1 => if m % 10 = 0 then normAux (m / 10) e else ⟨m, e + 1⟩

/-- Smart constructor: `m / 10 ^ e`, normalised. -/
def mk' (m : Int) (e : Nat) : Dec := normAux m e

/-- Embed an integer. -/
def ofInt (m : Int) : Dec := ⟨m, 0⟩

/-- Addition (exact). -/
def add (a b : Dec) : Dec :=
  mk' (a.mant * (10 : Int) ^ b.exp + b.mant * (10 : Int) ^ a.exp) (a.exp + b.exp)

/-- Multiplication (exact). -/
def mul (a b : Dec) : Dec :=
  mk' (a.mant * b.mant) (a.exp + b.exp)

/-- Division by `10 ^ k` (exact; the code only ever divides by 1000). -/
def div10pow (a : Dec) (k : Nat) : Dec :=
  mk' a.mant (a.exp + k)

/-- JavaScript `Math.round`: nearest integer, ties toward positive
infinity, i.e. `⌊x + 1/2⌋`. -/
def jsRound (a : Dec) : Int :=
  Int.fdiv (2 * a.mant + (10 : Int) ^ a.exp) (2 * (10 : Int) ^ a.exp)

/-- The integer `n` with `n / 100` closest to the value, ties toward
positive infinity — the rounding step of JavaScript `toFixed(2)`. -/
def fixed2Int (a : Dec) : Int :=
  Int.fdiv (2 * (a.mant * 100) + (10 : Int) ^ a.exp) (2 * (10 : Int) ^ a.exp)

/-- Two-digit zero padding for the fractional part of `toFixed(2)`. -/
def pad2 (n : Nat) : String :=
  if n < 10 then "0" ++ toString n else toString n

/-- JavaScript `x.toFixed(2)` for a (non-`NaN`) number. -/
def toFixed2 (a : Dec) : String :=
  let n := fixed2Int a
  let s := toString (n.natAbs / 100) ++ "." ++ pad2 (n.natAbs % 100)
  if n < 0 then "-" ++ s else s

/-- Nonnegativity of the modelled value. -/
def nonneg (a : Dec) : Prop := 0 ≤ a.mant

instance : DecidablePred nonneg := fun a => inferInstanceAs (Decidable (0 ≤ a.mant))

end Dec

/-- JavaScript `parseInt(s, 10)`: skip leading whitespace, optional sign,
then the longest run of leading digits; `NaN` (here `none`) when no digit
is found.  Applied to an absent argument (`parseInt(undefined)`) it is also
`NaN`. -/
def jsParseInt (o : Option String) : Option Int :=
  match o with
  | none => none
  | some s =>
    let l := s.data.dropWhile isWSChar
    let core : List Char → Option Int := fun l =>
      let ds := l.takeWhile Char.isDigit
      if ds.isEmpty then none else some (digitsVal ds : Int)
    match l with
    | '-' :: r => (core r).map fun n => -n
    | '+' :: r => core r
    | r => core r

/-- JavaScript `parseFloat(s)` for plain decimal notation: skip leading
whitespace, optional sign, integer digits, optional `.` and fraction
digits; `NaN` (`none`) when no digit at all is found.  Applied to an
absent argument it is `NaN`. -/
def jsParseFloat (o : Option String) : Option Dec :=
  match o with
  | none => none
  | some s =>
    let l := s.data.dropWhile isWSChar
    let core : List Char → Option Dec := fun l =>
      let ip := l.takeWhile Char.isDigit
      let rest := l.drop ip.length
      match rest with
      | '.' :: fr =>
        let fd := fr.takeWhile Char.isDigit
        if ip.isEmpty && fd.isEmpty then none
        else some (Dec.mk' ((digitsVal ip : Int) * (10 : Int) ^ fd.length + (digitsVal fd : Int)) fd.length)
      | _ => if ip.isEmpty then none else some (Dec.ofInt (digitsVal ip))
    match l with
    | '-' :: r => (core r).map fun d => ⟨-d.mant, d.exp⟩
    | '+' :: r => core r
    | r => core r

/-! ## WebVTT parsing (`parseWebVTT`)

Translation of the source's `parseWebVTT`.  The JavaScript scans the split
lines with an index `i`, and after consuming a cue's text block (up to the
next blank line or the end) resumes at the line after the block; here the
same scan is expressed by consuming a list of lines from the front.  A cue
start time that is `NaN` in JavaScript (e.g. a two-segment timestamp, whose
missing third segment makes `parseFloat` return `NaN`) is modelled as
`none`. -/

/-- One parsed cue: `{ start: seconds * 1000, text }`; `start = none` models
`NaN`. -/
structure TranscriptLine where
  start : Option Dec
  text : String
deriving DecidableEq, Repr

/-- `lines[i].includes('-->')`. -/
def hasArrow (s : String) : Bool :=
  jsIncludes s "-->"

/-- The `seconds` computation of `parseWebVTT` for a cue line:
`parseInt(seg[0], 10) * 3600 + parseInt(seg[1], 10) * 60 + parseFloat(seg[2])`,
where `seg` is the start timestamp (the part before `' --> '`) split on
`':'`.  Any `NaN` operand makes the result `NaN` (`none`). -/
def parseStartSeconds (line : String) : Option Dec :=
  let startTime := jsSplitHead line " --> "
  let seg := jsSplitChar ':' startTime
  match jsParseInt (seg.get? 0), jsParseInt (seg.get? 1), jsParseFloat (seg.get? 2) with
  | some h, some m, some s =>
    some ((Dec.ofInt h |>.mul (Dec.ofInt 3600)) |>.add (Dec.ofInt m |>.mul (Dec.ofInt 60)) |>.add s)
  | _, _, _ => none

/-- `seconds * 1000`, the stored start time in milliseconds. -/
def parseStartMillis (line : String) : Option Dec :=
  (parseStartSeconds line).map fun s => s.mul (Dec.ofInt 1000)

/-- The text-accumulation loop of `parseWebVTT`
(`while (j < lines.length && lines[j] !== '') text += lines[j] + ' '`):
returns the accumulated text and the remaining lines from the stopping
position `j` (so the remainder starts with the blank line when one was
found). -/
def collectText : List String → String × List String
  | [] => ("", [])
  | l :: ls =>
    if l = "" then ("", l :: ls)
    else
      let r := collectText ls
      (l ++ " " ++ r.1, r.2)

/-- The main scan of `parseWebVTT` over the split lines.  The JavaScript
walks an index `i`: a line containing `-->` starts a cue, its text block is
the run of following non-blank lines, and the scan resumes at the line
after the block (`i = j` followed by `i++` steps over the blank line).
Here the index walk is expressed structurally with a mode flag:
`skipping = false` is the outer scan, `skipping = true` advances over the
just-consumed text block (up to and including the blank line that ended
it), exactly as `i = j; i++` does. -/
def parseScan : Bool → List String → List TranscriptLine
  | _, [] => []
  | true, l :: ls => if l = "" then parseScan false ls else parseScan true ls
  | false, l :: ls =>
    if hasArrow l then
      ⟨parseStartMillis l, jsTrim (collectText ls).1⟩ :: parseScan true ls
    else parseScan false ls

/-- `parseWebVTT`: split the input on newlines and run the cue scan.  (The
JavaScript guard returning `[]` for non-string input lives in the shape
dispatch `normalizeTranscript` below; this function is only applied to
strings.) -/
def parseWebVTT (vttString : String) : List TranscriptLine :=
  parseScan false (jsSplitChar '\n' vttString)

/-! ## Upstream JSON values and the transcript shape dispatch

`getTranscript` receives an untyped upstream payload and dispatches on its
dynamic shape (string / object with `captions` array / object with `lines`
array / bare array).  `TValue` models the JSON-like JavaScript values
involved; `vnan` models the number `NaN`. -/

/-- A dynamic JavaScript value as seen by the transcript code. -/
inductive TValue where
  | vstr (s : String)
  | vnum (d : Dec)
  | vnan
  | vobj (fields : List (String × TValue))
  | varr (elems : List TValue)

namespace TValue

/-- `typeof v` (only the cases that can occur here; arrays and objects are
both `"object"`). -/
def typeofStr : TValue → String
  | vstr _ => "string"
  | vnum _ => "number"
  | vnan => "number"
  | vobj _ => "object"
  | varr _ => "object"

/-- Property access `v.k`: `none` models `undefined`.  Arrays and
primitives have none of the properties this code reads. -/
def getProp : TValue → String → Option TValue
  | vobj fields, k => (fields.find? fun f => f.1 = k).map Prod.snd
  | _, _ => none

/-- `v[i]` for a numeric index (only arrays matter here). -/
def jsIndex : TValue → Nat → Option TValue
  | varr elems, i => elems.get? i
  | _, _ => none

/-- `Array.isArray(v)` together with the element list. -/
def asArray : TValue → Option (List TValue)
  | varr elems => some elems
  | _ => none

/-- JavaScript falsiness of a value. -/
def jsFalsy : TValue → Bool
  | vstr s => s = ""
  | vnum d => d.mant = 0
  | vnan => true
  | vobj _ => false
  | varr _ => false

/-- `v.length` as read by `captions.length` (arrays and strings have one;
objects only if they carry such a property). -/
def jsLength : TValue → Option TValue
  | varr elems => some (vnum (Dec.ofInt elems.length))
  | vstr s => some (vnum (Dec.ofInt s.length))
  | v => v.getProp "length"

/-- String coercion as performed by a template literal, for the value kinds
that can appear here. -/
def jsToStr : TValue → String
  | vstr s => s
  | vnum d => Dec.toFixed2 d
  | vnan => "NaN"
  | vobj _ => "[object Object]"
  | varr _ => ""

end TValue

/-- Falsiness of a possibly-`undefined` value (`!captions`). -/
def jsFalsyOpt : Option TValue → Bool
  | none => true
  | some v => v.jsFalsy

/-- A cue produced by `parseWebVTT`, as the dynamic value the rest of the
service sees (`{ start, text }`, with `NaN` for an unparseable start). -/
def encodeLine (l : TranscriptLine) : TValue :=
  .vobj [("start", match l.start with | some d => .vnum d | none => .vnan),
         ("text", .vstr l.text)]

/-- The transcript shape dispatch at the end of `getTranscript` (the spec's
`normalizeTranscript`): a string is parsed as WebVTT; an object is probed
for an array under `captions`, then `lines`, then for being itself an
array, each returned verbatim; anything else throws
`"Could not parse transcript from the received data."`. -/
def normalizeTranscript (data : TValue) : Except String (List TValue) :=
  if data.typeofStr = "string" then
    .ok ((parseWebVTT (match data with | .vstr s => s | _ => "")).map encodeLine)
  else if data.typeofStr = "object" then
    match (data.getProp "captions").bind TValue.asArray with
    | some l => .ok l
    | none =>
      match (data.getProp "lines").bind TValue.asArray with
      | some l => .ok l
      | none =>
        match data.asArray with
        | some l => .ok l
        | none => .error "Could not parse transcript from the received data."
  else .error "Could not parse transcript from the received data."

/-- The network requests the service can issue, for stating which calls a
code path performs. -/
inductive UpstreamCall where
  | videoDetails (videoId : String)
  | comments (videoId : String)
  | captionsFetch (videoId : String)
  | transcriptBody (url : String)
  | channel (channelId : String)
  | search (query : String)
deriving DecidableEq, Repr

/-- The upstream base URL constants. -/
def INVIDIOUS_DOMAIN : String := "https://inv.perditum.com"

/-- `getTranscript`, given the (successful) response body of the captions
fetch and the response body of any transcript-track fetch: throws
`"No captions available for this video."` when `captionsData.captions` is
falsy or has length `0`; otherwise fetches `captions[0].url` prefixed with
the upstream domain and runs the shape dispatch on the returned body.  The
second component lists the network calls issued, in order. -/
def getTranscript (videoId : String) (captionsData : TValue)
    (body : String → TValue) : Except String (List TValue) × List UpstreamCall :=
  let captions := captionsData.getProp "captions"
  if jsFalsyOpt captions ||
      (match captions.map TValue.jsLength with
       | some (some (.vnum d)) => d == Dec.ofInt 0
       | _ => false) then
    (.error "No captions available for this video.", [.captionsFetch videoId])
  else
    match captions.bind (·.jsIndex 0) with
    | none =>
      -- JavaScript would throw a TypeError reading `.url` of `undefined`;
      -- unreachable for array-shaped caption lists, which is all the
      -- upstream returns.
      (.error "TypeError: Cannot read properties of undefined", [.captionsFetch videoId])
    | some first =>
      let transcriptPath := match first.getProp "url" with
        | some v => v.jsToStr
        | none => "undefined"
      let fullTranscriptUrl := INVIDIOUS_DOMAIN ++ transcriptPath
      (normalizeTranscript (body fullTranscriptUrl),
       [.captionsFetch videoId, .transcriptBody fullTranscriptUrl])

/-! ## Stream-link formatter (`getFormattedStreams`) -/

/-- An upstream format descriptor, with the fields `getFormattedStreams`
reads (`none` models an absent field). -/
structure FormatDescriptor where
  qualityLabel : Option String := none
  resolution : Option String := none
  type : String
  url : Option String := none
  bitrate : Option Dec := none
deriving DecidableEq, Repr

/-- The parts of a video-details payload the formatter reads; `none` models
a field that is absent or not an array (`Array.isArray` fails). -/
structure StreamSource where
  formatStreams : Option (List FormatDescriptor) := none
  adaptiveFormats : Option (List FormatDescriptor) := none

/-- One output entry `{ quality, type, url }`. -/
structure StreamEntry where
  quality : String
  type : String
  url : Option String
deriving DecidableEq, Repr

/-- The categorised result of `getFormattedStreams`. -/
structure FormattedStreams where
  video_with_audio : List StreamEntry
  video_only : List StreamEntry
  audio_only : List StreamEntry
deriving DecidableEq, Repr

/-- `stream.qualityLabel || stream.resolution || 'N/A'`. -/
def labelQuality (s : FormatDescriptor) : String :=
  jsOr s.qualityLabel (jsOr s.resolution "N/A")

/-- The audio quality string:
`` `${Math.round(stream.bitrate / 1000)}kbps` `` (`NaN` when the bitrate is
absent). -/
def audioQuality (bitrate : Option Dec) : String :=
  match bitrate with
  | some b => toString (Dec.jsRound (b.div10pow 3)) ++ "kbps"
  | none => "NaNkbps"

/-- `getFormattedStreams`: combined streams become `video_with_audio`
entries with label-or-resolution quality; adaptive streams are routed by
MIME prefix, `video/` keeping the label quality and `audio/` always
deriving quality from the bitrate.  `processUrl` (the `local=false` URL
rewrite) is the platform's URL library and is passed in as a function. -/
def getFormattedStreams (processUrl : String → String) (details : StreamSource) :
    FormattedStreams :=
  let mkEntry := fun (s : FormatDescriptor) =>
    StreamEntry.mk (labelQuality s) s.type (s.url.map processUrl)
  let adaptive := details.adaptiveFormats.getD []
  { video_with_audio := (details.formatStreams.getD []).map mkEntry
    video_only := (adaptive.filter fun s => jsStartsWith s.type "video/").map mkEntry
    audio_only := (adaptive.filter fun s =>
        !jsStartsWith s.type "video/" && jsStartsWith s.type "audio/").map fun s =>
      { mkEntry s with quality := audioQuality s.bitrate } }

/-! ## The `/api/fetch` fan-out aggregator -/

/-- The two fast-failure responses of `/api/fetch` (both HTTP 400): no
identifier at all, or identifiers but no applicable field. -/
inductive FetchError where
  | noTarget
  | noFields
deriving DecidableEq, Repr

/-- A per-field outcome in the aggregate response: the raw upstream payload
on success, or the inline error descriptor
`{ error: "Failed to fetch <key>", details: … }` on failure. -/
inductive FieldResult (α : Type) where
  | ok (v : α)
  | err (errorMessage : String) (details : String)
deriving DecidableEq, Repr

/-- `req.query.fields ? req.query.fields.split(',').map(f => f.trim()) : []`. -/
def splitFields (fieldsParam : Option String) : List String :=
  if jsTruthy fieldsParam then (jsSplitChar ',' (fieldsParam.getD "")).map jsTrim
  else []

/-- The task list the handler builds: for each enabled field, its response
key together with the upstream call launched for it, in push order.
`search_results` is enabled by a truthy `search` parameter alone; the other
fields each require their identifier and their name in `fields`. -/
def fetchTasks (videoId channelId query : Option String) (fields : List String) :
    List (String × UpstreamCall) :=
  (if jsTruthy videoId then
    (if fields.contains "details" then [("details", UpstreamCall.videoDetails (videoId.getD ""))] else []) ++
    (if fields.contains "comments" then [("comments", UpstreamCall.comments (videoId.getD ""))] else []) ++
    (if fields.contains "transcript" then [("transcript", UpstreamCall.captionsFetch (videoId.getD ""))] else [])
  else []) ++
  (if jsTruthy channelId && fields.contains "channel" then
    [("channel", UpstreamCall.channel (channelId.getD ""))] else []) ++
  (if jsTruthy query then [("search_results", UpstreamCall.search (query.getD ""))] else [])

/-- How one settled task is folded into the response object:
`result.value` when fulfilled, otherwise
`{ error: "Failed to fetch <key>", details: reason?.message || 'Unknown error' }`.
A rejection's `reason?.message` is an `Option String`. -/
def settleField (α : Type) (key : String) (outcome : Except (Option String) α) :
    FieldResult α :=
  match outcome with
  | .ok v => .ok v
  | .error m => .err ("Failed to fetch " ++ key) (jsOr m "Unknown error")

/-- The `/api/fetch` handler (its aggregation core): parameter validation,
task construction, settle-all, and response assembly.  `settle` gives each
launched task's settled outcome.  Returns the response — an error for the
two 400 cases, otherwise the keyed field results in push order — together
with the list of upstream calls issued. -/
def fetchHandler (α : Type) (videoId channelId query fieldsParam : Option String)
    (settle : String → UpstreamCall → Except (Option String) α) :
    Except FetchError (List (String × FieldResult α)) × List UpstreamCall :=
  let fields := splitFields fieldsParam
  if !(jsTruthy videoId || jsTruthy channelId || jsTruthy query) then
    (.error .noTarget, [])
  else
    let tasks := fetchTasks videoId channelId query fields
    if tasks.isEmpty then (.error .noFields, [])
    else
      (.ok (tasks.map fun kc => (kc.1, settleField α kc.1 (settle kc.1 kc.2))),
       tasks.map Prod.snd)

/-! ## The `/api/analyze_video` report renderer (`generateLlmReport`) -/

/-- A settled promise: fulfilled with a value, or rejected with
`reason?.message` (an optional message string). -/
inductive Settled (α : Type) where
  | fulfilled (value : α)
  | rejected (message : Option String)

/-- `new Intl.NumberFormat('en-US').format(n)` for an integer: decimal
digits grouped in threes with commas. -/
def chunk3 : List Char → List (List Char)
  | [] => []
  | a :: b :: c :: rest => [a, b, c] :: chunk3 rest
  | l => [l]

/-- Locale number rendering with thousand separators. -/
def groupThousands (n : Int) : String :=
  let ds := (toString n.natAbs).data
  let grouped := ((chunk3 ds.reverse).map List.reverse).reverse
  (if n < 0 then "-" else "") ++ (⟨List.intercalate [','] grouped⟩ : String)

/-- `formatNumber = (num) => num != null ? new Intl.NumberFormat(…) : "N/A"`
(`!= null` is a nullish test, so `0` renders as `"0"`). -/
def formatNumber (num : Option Int) : String :=
  match num with
  | some n => groupThousands n
  | none => "N/A"

/-- `formatDate = (d) => d ? new Date(d).toISOString().split('T')[0] : "N/A"`;
the `Date`/ISO conversion is the platform's date library, passed in as
`fmtISO`. -/
def formatDate (fmtISO : String → String) (dateString : Option String) : String :=
  if jsTruthy dateString then fmtISO (dateString.getD "") else "N/A"

/-- One comment as read by the renderer. -/
structure Comment where
  content : Option String := none
  likeCount : Option Int := none
deriving DecidableEq, Repr

/-- The sort key `c.likeCount || 0` (an absent — or falsy `0` — like count
counts as `0`). -/
def likesKey (c : Comment) : Int :=
  match c.likeCount with
  | some n => if n = 0 then 0 else n
  | none => 0

/-- Insertion step of the stable descending sort: an element moves past an
existing one only when its key is strictly larger, so equal keys keep
their original relative order. -/
def insertByLikes (x : Comment) : List Comment → List Comment
  | [] => [x]
  | y :: ys => if likesKey x < likesKey y then y :: insertByLikes x ys else x :: y :: ys

/-- `comments.sort((a, b) => (b.likeCount || 0) - (a.likeCount || 0))`:
`Array.prototype.sort` is stable (ES2019), and with this comparator it
orders by the like count descending; modelled by a stable insertion sort,
which produces the same sequence. -/
def sortByLikesDesc : List Comment → List Comment
  | [] => []
  | x :: xs => insertByLikes x (sortByLikesDesc xs)

/-- One rendered comment bullet:
`` `- **Top Comment (${formatNumber(c.likeCount)} likes):** ${c.content ? c.content.trim() : ''}` ``. -/
def commentBullet (c : Comment) : String :=
  "- **Top Comment (" ++ formatNumber c.likeCount ++ " likes):** " ++
    (if jsTruthy c.content then jsTrim (c.content.getD "") else "")

/-- The comment section body: sort descending by likes, keep the first
three, render bullets joined by newlines. -/
def topCommentsTextOf (cs : List Comment) : String :=
  String.intercalate "\n" (((sortByLikesDesc cs).take 3).map commentBullet)

/-- The fulfilled comments payload: `value.comments` is a comment array or
not an array at all (`Array.isArray` fails ⇒ placeholder text). -/
structure CommentsVal where
  comments : Option (List Comment) := none

/-- `topCommentsText`: placeholder unless the comments call was fulfilled
with an array under `comments`. -/
def commentsTextOf (cr : Settled CommentsVal) : String :=
  match cr with
  | .fulfilled v =>
    match v.comments with
    | some cs => topCommentsTextOf cs
    | none => "No comments available or failed to fetch."
  | .rejected _ => "No comments available or failed to fetch."

/-- A transcript-line number: a decimal value or `NaN`. -/
inductive JVal where
  | num (d : Dec)
  | nan
deriving DecidableEq, Repr

/-- A transcript line as read by the renderer (`line.start ?? line.offset
?? 0`, `line.text || ''`): each field may be absent. -/
structure RLine where
  start : Option JVal := none
  offset : Option JVal := none
  text : Option String := none

/-- One rendered transcript line:
`` `(${((line.start ?? line.offset ?? 0) / 1000).toFixed(2)}s) ${(line.text || '').trim()}` ``. -/
def renderReportLine (l : RLine) : String :=
  let ts := l.start.getD (l.offset.getD (JVal.num (Dec.ofInt 0)))
  let seconds := match ts with
    | .num d => (d.div10pow 3).toFixed2
    | .nan => "NaN"
  "(" ++ seconds ++ "s) " ++ jsTrim (jsOr l.text "")

/-- `transcriptText`: placeholder unless the transcript call was fulfilled
with a non-empty array. -/
def transcriptTextOf (tr : Settled (List RLine)) : String :=
  match tr with
  | .fulfilled lines =>
    if 0 < lines.length then String.intercalate "\n" (lines.map renderReportLine)
    else "Transcript not available."
  | .rejected _ => "Transcript not available."

/-- The video-details fields the renderer reads. -/
structure VideoDetailsR where
  title : Option String := none
  viewCount : Option Int := none
  likeCount : Option Int := none
  published : Option String := none
  author : Option String := none
  authorId : Option String := none
  description : Option String := none

/-- The channel-details field the renderer reads (`{}` on failure, i.e. no
`subCount`). -/
structure ChannelR where
  subCount : Option Int := none

/-- The fixed report template with its interpolated values (before the
final `.trim()`). -/
def reportTemplate (fmtISO : String → String) (details : VideoDetailsR)
    (chan : ChannelR) (transcriptText topCommentsText : String) : String :=
  "**YouTube Video Analysis Report**\n\n**1. Basic Information:**\n- **Title:** " ++
    jsOr details.title "N/A" ++
  "\n- **Views:** " ++ formatNumber details.viewCount ++
  "\n- **Likes:** " ++ formatNumber details.likeCount ++
  "\n- **Uploaded On:** " ++ formatDate fmtISO details.published ++
  "\n\n**2. Channel Details:**\n- **Channel Name:** " ++ jsOr details.author "N/A" ++
  "\n- **Subscribers:** " ++ formatNumber chan.subCount ++
  "\n- **Channel ID:** " ++ jsOr details.authorId "N/A" ++
  "\n\n**3. Video Description:**\n" ++
    (if jsTruthy details.description then jsTrim (details.description.getD "")
     else "No description provided.") ++
  "\n\n**4. Video Transcript (What is being said):**\n" ++ transcriptText ++
  "\n\n**5. Public Opinion (Top Comments Summary):**\n" ++ topCommentsText ++
  "\n\n**--- End of Report ---**"

/-- `generateLlmReport`, given the three settled fan-out outcomes, the
dependent channel fetch and the date library: a rejected details call
short-circuits to the one-line `Fatal Error:` string; otherwise the channel
lookup is attempted (best effort, failures swallowed as `{}`) and the full
template is rendered and trimmed.  The second component lists the channel
ids fetched (empty on the fatal path, where the lookup is never reached). -/
def generateLlmReport (detailsResult : Settled VideoDetailsR)
    (commentsResult : Settled CommentsVal) (transcriptResult : Settled (List RLine))
    (getChannel : String → Except (Option String) ChannelR)
    (fmtISO : String → String) : String × List String :=
  match detailsResult with
  | .rejected reason =>
    ("Fatal Error: " ++ jsOr reason "Could not fetch video details", [])
  | .fulfilled details =>
    let chanCalls := if jsTruthy details.authorId then [details.authorId.getD ""] else []
    let chan : ChannelR :=
      if jsTruthy details.authorId then
        match getChannel (details.authorId.getD "") with
        | .ok c => c
        | .error _ => {}
      else {}
    (jsTrim (reportTemplate fmtISO details chan (transcriptTextOf transcriptResult)
        (commentsTextOf commentsResult)),
     chanCalls)

/-! ## Specification-side definitions

Definitions below follow the specification's words (not the code), for
stating and checking the claims against the embedded code. -/

/-- Number of timed-cue lines: lines containing the `-->` marker. -/
def countArrows (lines : List String) : Nat :=
  lines.countP fun l => hasArrow l

/-- Well-formedness of a captions-text input, per the specification: every
cue line's start timestamp parses to a non-negative number of seconds, and
the text lines of a cue block contain no `-->` marker (so the marker count
is exactly the cue count).  Same two-mode scan shape as `parseScan`. -/
def validScan : Bool → List String → Bool
  | _, [] => true
  | true, l :: ls =>
    if l = "" then validScan false ls
    else !hasArrow l && validScan true ls
  | false, l :: ls =>
    if hasArrow l then
      (match parseStartSeconds l with
       | some d => decide (0 ≤ d.mant)
       | none => false) && validScan true ls
    else validScan false ls

/-- A valid captions-text input (after splitting on newlines). -/
def validVTT (lines : List String) : Bool :=
  validScan false lines

/-- The cue lines (the lines carrying `start --> end`) in input order, via
the same scan as `parseScan`: the i-th parsed entry comes from the i-th cue
line. -/
def cueScan : Bool → List String → List String
  | _, [] => []
  | true, l :: ls => if l = "" then cueScan false ls else cueScan true ls
  | false, l :: ls => if hasArrow l then l :: cueScan true ls else cueScan false ls

/-- The four recognised input shapes exactly as the claim words them:
"textual input containing `-->` markers; an object with an array under
`captions`; an object with an array under `lines`; a bare array". -/
def claimShape (data : TValue) : Bool :=
  match data with
  | .vstr s => jsIncludes s "-->"
  | _ =>
    ((data.getProp "captions").bind TValue.asArray).isSome ||
    ((data.getProp "lines").bind TValue.asArray).isSome ||
    data.asArray.isSome

/-- The shapes the code actually accepts: any string at all (markerless
strings parse to `[]` rather than failing), or one of the three structured
shapes. -/
def codeShape (data : TValue) : Bool :=
  match data with
  | .vstr _ => true
  | _ =>
    ((data.getProp "captions").bind TValue.asArray).isSome ||
    ((data.getProp "lines").bind TValue.asArray).isSome ||
    data.asArray.isSome

/-! ## Lemmas about the WebVTT scan -/

theorem normAux_mant_nonneg (e : Nat) : ∀ m : Int, 0 ≤ m → 0 ≤ (Dec.normAux m e).mant := by
  induction e with
  | zero => intro m h; simpa [Dec.normAux] using h
  | succ e ih =>
    intro m h
    by_cases h10 : m % 10 = 0
    · simpa [Dec.normAux, h10] using ih (m / 10) (by omega)
    · simpa [Dec.normAux, h10] using h

theorem mul_ofInt1000_mant_nonneg (d : Dec) (h : 0 ≤ d.mant) :
    0 ≤ (d.mul (Dec.ofInt 1000)).mant := by
  unfold Dec.mul Dec.mk' Dec.ofInt
  exact normAux_mant_nonneg _ _ (by positivity)

theorem parseScan_map_start (ls : List String) : ∀ b : Bool,
    (parseScan b ls).map TranscriptLine.start = (cueScan b ls).map parseStartMillis := by
  induction ls with
  | nil => intro b; cases b <;> rfl
  | cons l ls ih =>
    intro b
    cases b with
    | true =>
      by_cases hl : l = "" <;> simp [parseScan, cueScan, hl, ih]
    | false =>
      by_cases ha : hasArrow l <;> simp [parseScan, cueScan, ha, ih]

theorem parseScan_length (ls : List String) (b : Bool) :
    (parseScan b ls).length = (cueScan b ls).length := by
  have h := congrArg List.length (parseScan_map_start ls b)
  simpa using h

theorem hasArrow_empty : hasArrow "" = false := rfl

theorem cueScan_length (ls : List String) : ∀ b : Bool, validScan b ls = true →
    (cueScan b ls).length = countArrows ls := by
  induction ls with
  | nil => intro b _; cases b <;> rfl
  | cons l ls ih =>
    intro b h
    cases b with
    | true =>
      by_cases hl : l = ""
      · subst hl
        simp only [validScan, if_pos rfl] at h
        simp [cueScan, countArrows, List.countP_cons, hasArrow_empty, ih false h]
      · simp only [validScan, if_neg hl, Bool.and_eq_true, Bool.not_eq_true'] at h
        simp [cueScan, hl, countArrows, List.countP_cons, h.1, ih true h.2]
    | false =>
      by_cases ha : hasArrow l
      · simp only [validScan, ha, Bool.and_eq_true, if_pos] at h
        simp [cueScan, ha, countArrows, List.countP_cons, ih true h.2]
      · simp only [validScan, ha, if_neg, Bool.false_eq_true, not_false_eq_true] at h
        simp [cueScan, ha, countArrows, List.countP_cons, ih false h]

theorem parseScan_start_nonneg (ls : List String) : ∀ b : Bool, validScan b ls = true →
    ∀ e ∈ parseScan b ls, ∃ d, e.start = some d ∧ 0 ≤ d.mant := by
  induction ls with
  | nil => intro b _ e he; simp [parseScan] at he
  | cons l ls ih =>
    intro b h e he
    cases b with
    | true =>
      by_cases hl : l = ""
      · subst hl
        simp only [validScan, if_pos rfl] at h
        simp only [parseScan, if_pos rfl] at he
        exact ih false h e he
      · simp only [validScan, if_neg hl, Bool.and_eq_true] at h
        simp only [parseScan, if_neg hl] at he
        exact ih true h.2 e he
    | false =>
      by_cases ha : hasArrow l
      · simp only [validScan, ha, if_pos, Bool.and_eq_true] at h
        simp only [parseScan, ha, if_pos, List.mem_cons] at he
        rcases he with he | he
        · subst he
          rcases hp : parseStartSeconds l with _ | d
          · rw [hp] at h; simp at h
          · rw [hp] at h
            simp only [decide_eq_true_eq, Bool.and_eq_true] at h
            refine ⟨d.mul (Dec.ofInt 1000), ?_, mul_ofInt1000_mant_nonneg d h.1⟩
            simp [parseStartMillis, hp]
        · exact ih true h.2 e he
      · simp only [validScan, ha, if_neg, Bool.false_eq_true, not_false_eq_true] at h
        simp only [parseScan, ha, if_neg, Bool.false_eq_true, not_false_eq_true] at he
        exact ih false h e he

/-! ## Claim theorems -/

/-- C2, counterexample: on a cue whose start timestamp is the two-segment
`01:05.000` (1 minute 5 seconds), the parser does not produce
`(1*60 + 5) * 1000 = 65000` milliseconds — it produces `NaN` (`none`),
because it reads the first segment as hours and feeds the missing third
segment to `parseFloat`. -/
theorem claim_C2_counterexample :
    (parseWebVTT "01:05.000 --> 01:07.000\nHello world\n\n").map TranscriptLine.start
      = [none] ∧
    ¬ (parseWebVTT "01:05.000 --> 01:07.000\nHello world\n\n").map TranscriptLine.start
      = [some (Dec.ofInt 65000)] := by
  exact ⟨rfl, by decide⟩

/-- C2 (amended): a start timestamp with exactly two colon-separated
segments yields no numeric start at all (`NaN`, modelled `none`) — the
parser unconditionally reads segments as hours:minutes:seconds — while a
three-segment `H:MM:SS.mmm` start yields
`(hours*3600 + minutes*60 + seconds) * 1000` milliseconds. -/
theorem claim_C2_timestamp_parsing :
    (∀ line : String,
      (jsSplitChar ':' (jsSplitHead line " --> ")).length = 2 →
      parseStartMillis line = none) ∧
    (∀ (line hs ms ss : String) (h m : Int) (s : Dec),
      jsSplitChar ':' (jsSplitHead line " --> ") = [hs, ms, ss] →
      jsParseInt (some hs) = some h →
      jsParseInt (some ms) = some m →
      jsParseFloat (some ss) = some s →
      parseStartMillis line =
        some (((((Dec.ofInt h).mul (Dec.ofInt 3600)).add
          ((Dec.ofInt m).mul (Dec.ofInt 60))).add s).mul (Dec.ofInt 1000))) := by
  constructor
  · intro line hlen
    have h2 : (jsSplitChar ':' (jsSplitHead line " --> ")).get? 2 = none := by
      rw [List.get?_eq_none]
      omega
    simp only [parseStartMillis, parseStartSeconds]
    rw [h2]
    rcases jsParseInt ((jsSplitChar ':' (jsSplitHead line " --> ")).get? 0) with _ | a <;>
      rcases jsParseInt ((jsSplitChar ':' (jsSplitHead line " --> ")).get? 1) with _ | b <;>
      simp [jsParseFloat]
  · intro line hs ms ss h m s hseg hh hm hsv
    simp only [parseStartMillis, parseStartSeconds]
    rw [hseg]
    simp only [List.get?]
    rw [hh, hm, hsv]
    rfl

/-- C2: witness of the amended theorem at concrete inputs — the
two-segment start `01:05.000` parses to `NaN`, and the three-segment start
`00:01:05.000` parses to `65000` milliseconds. -/
theorem claim_C2_timestamp_parsing_witness :
    parseStartMillis "01:05.000 --> 01:07.000" = none ∧
    parseStartMillis "00:01:05.000 --> 00:01:07.000" = some (Dec.ofInt 65000) := by
  constructor
  · exact claim_C2_timestamp_parsing.1 "01:05.000 --> 01:07.000" (by rfl)
  · exact claim_C2_timestamp_parsing.2 "00:01:05.000 --> 00:01:07.000"
      "00" "01" "05.000" 0 1 (Dec.ofInt 5) rfl rfl rfl rfl

/-- C3: on a valid captions-text input the parser returns exactly one
entry per timed-cue line (`-->` line), in input order (the i-th entry's
start time is the i-th cue line's parsed start), each with a non-negative
millisecond start; and the specification's concrete example yields exactly
one entry at `65000` ms with text `"Hello world"`. -/
theorem claim_C3_cue_count :
    (∀ s : String, validVTT (jsSplitChar '\n' s) = true →
      (parseWebVTT s).length = countArrows (jsSplitChar '\n' s) ∧
      (parseWebVTT s).map TranscriptLine.start
        = (cueScan false (jsSplitChar '\n' s)).map parseStartMillis ∧
      ∀ e ∈ parseWebVTT s, ∃ d, e.start = some d ∧ 0 ≤ d.mant) ∧
    parseWebVTT "00:01:05.000 --> 00:01:07.000\nHello world\n\n"
      = [⟨some (Dec.ofInt 65000), "Hello world"⟩] := by
  refine ⟨fun s hv => ⟨?_, ?_, ?_⟩, rfl⟩
  · rw [parseWebVTT, parseScan_length]
    exact cueScan_length _ false hv
  · exact parseScan_map_start _ false
  · exact parseScan_start_nonneg _ false hv

/-- C3: witness — the concrete example input is valid, has exactly one
`-->` line, and the theorem applies to it. -/
theorem claim_C3_cue_count_witness :
    validVTT (jsSplitChar '\n' "00:01:05.000 --> 00:01:07.000\nHello world\n\n") = true ∧
    ((parseWebVTT "00:01:05.000 --> 00:01:07.000\nHello world\n\n").length
        = countArrows (jsSplitChar '\n' "00:01:05.000 --> 00:01:07.000\nHello world\n\n") ∧
      (parseWebVTT "00:01:05.000 --> 00:01:07.000\nHello world\n\n").map TranscriptLine.start
        = (cueScan false (jsSplitChar '\n' "00:01:05.000 --> 00:01:07.000\nHello world\n\n")).map
            parseStartMillis ∧
      ∀ e ∈ parseWebVTT "00:01:05.000 --> 00:01:07.000\nHello world\n\n",
        ∃ d, e.start = some d ∧ 0 ≤ d.mant) := by
  exact ⟨rfl, claim_C3_cue_count.1 _ rfl⟩

/-- C4, counterexample: a textual input without `-->` markers matches none
of the claim's four recognised shapes, yet the normalizer does not fail —
it returns the empty transcript (`parseWebVTT` finds no cues), refuting the
"exactly when" characterisation. -/
theorem claim_C4_counterexample :
    claimShape (.vstr "hello") = false ∧
    normalizeTranscript (.vstr "hello") = .ok [] := by
  exact ⟨rfl, rfl⟩

/-- C4 (amended): the normalizer fails with the `UnrecognizedFormat` error
exactly when the input is neither textual (any string, with or without
markers, is handed to the captions-text parser — a markerless string
yields `[]`) nor an object with an array under `captions` or `lines` nor a
bare array; in particular `{unrelated: 1}` fails while `{lines: […]}` is
returned as that list verbatim. -/
theorem claim_C4_unrecognized_format :
    (∀ data : TValue,
      (∃ msg, normalizeTranscript data = .error msg) ↔ codeShape data = false) ∧
    normalizeTranscript (.vobj [("unrelated", .vnum (Dec.ofInt 1))])
      = .error "Could not parse transcript from the received data." ∧
    (∀ elems : List TValue,
      normalizeTranscript (.vobj [("lines", .varr elems)]) = .ok elems) := by
  refine ⟨fun data => ?_, rfl, fun elems => rfl⟩
  cases data with
  | vstr s => simp [normalizeTranscript, codeShape, TValue.typeofStr]
  | vnum d => simp [normalizeTranscript, codeShape, TValue.typeofStr, TValue.getProp, TValue.asArray]
  | vnan => simp [normalizeTranscript, codeShape, TValue.typeofStr, TValue.getProp, TValue.asArray]
  | vobj fields =>
    have ha : (TValue.vobj fields).asArray = none := rfl
    rcases hc : (TValue.getProp (.vobj fields) "captions").bind TValue.asArray with _ | lc
    · rcases hl : (TValue.getProp (.vobj fields) "lines").bind TValue.asArray with _ | ll
      · simp [normalizeTranscript, codeShape, TValue.typeofStr, hc, hl, ha]
      · simp [normalizeTranscript, codeShape, TValue.typeofStr, hc, hl, ha]
    · simp [normalizeTranscript, codeShape, TValue.typeofStr, hc, ha]
  | varr elems =>
    simp [normalizeTranscript, codeShape, TValue.typeofStr, TValue.getProp, TValue.asArray]

/-- C5: when the fetched caption-track list is absent or empty,
`getTranscript` fails with the `NoCaptions` error having issued only the
first network call (no track-body fetch); when the list is non-empty, the
body fetch is issued for exactly the first track's path (domain-prefixed),
and its response is what the shape dispatch runs on. -/
theorem claim_C5_no_captions_fast_fail :
    ∀ (videoId : String) (captionsData : TValue) (body : String → TValue),
      (captionsData.getProp "captions" = none →
        getTranscript videoId captionsData body =
          (.error "No captions available for this video.", [.captionsFetch videoId])) ∧
      (captionsData.getProp "captions" = some (.varr []) →
        getTranscript videoId captionsData body =
          (.error "No captions available for this video.", [.captionsFetch videoId])) ∧
      (∀ (first : TValue) (rest : List TValue),
        captionsData.getProp "captions" = some (.varr (first :: rest)) →
        getTranscript videoId captionsData body =
          (normalizeTranscript (body (INVIDIOUS_DOMAIN ++
              (match first.getProp "url" with
               | some v => v.jsToStr
               | none => "undefined"))),
           [.captionsFetch videoId,
            .transcriptBody (INVIDIOUS_DOMAIN ++
              (match first.getProp "url" with
               | some v => v.jsToStr
               | none => "undefined"))])) := by
  intro videoId captionsData body
  refine ⟨fun h => ?_, fun h => ?_, fun first rest h => ?_⟩
  · simp [getTranscript, h, jsFalsyOpt]
  · simp [getTranscript, h, jsFalsyOpt, TValue.jsFalsy, TValue.jsLength]
  · have hne : ¬ Dec.ofInt ((rest.length : Int) + 1) = Dec.ofInt 0 := by
      simp only [Dec.ofInt, Dec.mk.injEq]
      omega
    simp [getTranscript, h, jsFalsyOpt, TValue.jsFalsy, TValue.jsLength, TValue.jsIndex, hne]

/-- C5: witness — with an empty caption list only the captions fetch is
issued; with a two-track list the body fetch goes to the first track's
path. -/
theorem claim_C5_no_captions_fast_fail_witness :
    getTranscript "vid" (.vobj [("captions", .varr [])]) (fun _ => .vstr "")
      = (.error "No captions available for this video.", [.captionsFetch "vid"]) ∧
    getTranscript "vid"
        (.vobj [("captions", .varr [.vobj [("url", .vstr "/p1")], .vobj [("url", .vstr "/p2")]])])
        (fun _ => .vstr "")
      = (normalizeTranscript (.vstr ""),
         [.captionsFetch "vid", .transcriptBody "https://inv.perditum.com/p1"]) := by
  constructor
  · exact (claim_C5_no_captions_fast_fail "vid" (.vobj [("captions", .varr [])])
      (fun _ => .vstr "")).2.1 rfl
  · exact (claim_C5_no_captions_fast_fail "vid"
      (.vobj [("captions", .varr [.vobj [("url", .vstr "/p1")], .vobj [("url", .vstr "/p2")]])])
      (fun _ => .vstr "")).2.2 (.vobj [("url", .vstr "/p1")]) [.vobj [("url", .vstr "/p2")]] rfl

theorem audio_not_video (t : String) (h : jsStartsWith t "audio/" = true) :
    jsStartsWith t "video/" = false := by
  unfold jsStartsWith at *
  have ha : "audio/".data = 'a' :: "udio/".data := rfl
  have hv : "video/".data = 'v' :: "ideo/".data := rfl
  rw [ha] at h
  rw [hv]
  cases ht : t.data with
  | nil => rw [ht] at h; simp [List.isPrefixOf] at h
  | cons c rest =>
    rw [ht] at h
    simp only [List.isPrefixOf, Bool.and_eq_true, beq_iff_eq] at h
    obtain ⟨hc, -⟩ := h
    subst hc
    rfl

/-- C6: every `audio_only` entry of `getFormattedStreams` takes its quality
from the descriptor's bitrate as `round(bitrate/1000)` + `"kbps"`
(`audioQuality`), never from a quality label; every adaptive descriptor
whose type starts with `audio/` contributes such an entry; and one adaptive
audio descriptor with bitrate 128000 and no label yields exactly one
`audio_only` entry with quality `"128kbps"`. -/
theorem claim_C6_audio_bitrate_quality :
    (∀ (processUrl : String → String) (details : StreamSource) (entry : StreamEntry),
      entry ∈ (getFormattedStreams processUrl details).audio_only →
      ∃ s ∈ details.adaptiveFormats.getD [],
        jsStartsWith s.type "audio/" = true ∧
        entry = ⟨audioQuality s.bitrate, s.type, s.url.map processUrl⟩) ∧
    (∀ (processUrl : String → String) (details : StreamSource) (s : FormatDescriptor),
      s ∈ details.adaptiveFormats.getD [] →
      jsStartsWith s.type "audio/" = true →
      (⟨audioQuality s.bitrate, s.type, s.url.map processUrl⟩ : StreamEntry)
        ∈ (getFormattedStreams processUrl details).audio_only) ∧
    getFormattedStreams id
        ⟨none, some [⟨none, none, "audio/mp4", none, some (Dec.ofInt 128000)⟩]⟩
      = ⟨[], [], [⟨"128kbps", "audio/mp4", none⟩]⟩ := by
  refine ⟨?_, ?_, rfl⟩
  · intro processUrl details entry hmem
    simp only [getFormattedStreams, List.mem_map, List.mem_filter,
      Bool.and_eq_true, Bool.not_eq_true'] at hmem
    rcases hmem with ⟨s, ⟨hs, _, haud⟩, hentry⟩
    exact ⟨s, hs, haud, hentry.symm⟩
  · intro processUrl details s hs haud
    simp only [getFormattedStreams, List.mem_map]
    refine ⟨s, ?_, rfl⟩
    simp only [List.mem_filter, Bool.and_eq_true, Bool.not_eq_true']
    exact ⟨hs, audio_not_video s.type haud, haud⟩

/-- C6: witness — the single adaptive audio descriptor of the example
produces its `audio_only` entry via the theorem. -/
theorem claim_C6_audio_bitrate_quality_witness :
    (⟨audioQuality (some (Dec.ofInt 128000)), "audio/mp4", none⟩ : StreamEntry)
      ∈ (getFormattedStreams id
          ⟨none, some [⟨none, none, "audio/mp4", none, some (Dec.ofInt 128000)⟩]⟩).audio_only := by
  exact claim_C6_audio_bitrate_quality.2.1 id
    ⟨none, some [⟨none, none, "audio/mp4", none, some (Dec.ofInt 128000)⟩]⟩
    ⟨none, none, "audio/mp4", none, some (Dec.ofInt 128000)⟩ (by simp) rfl

/-- C1: whenever parameter validation passes and among the enabled fields
at least one fails and at least one succeeds, the aggregator returns (never
throws) a response carrying exactly one key per enabled field, mapping each
succeeding field to its raw payload and each failing field to
`{error: "Failed to fetch <field>", details: <message or "Unknown error">}`. -/
theorem claim_C1_partial_failure_aggregation :
    ∀ (α : Type) (videoId channelId query fieldsParam : Option String)
      (settle : String → UpstreamCall → Except (Option String) α)
      (k1 : String) (call1 : UpstreamCall) (m1 : Option String)
      (k2 : String) (call2 : UpstreamCall) (p2 : α),
      (jsTruthy videoId || jsTruthy channelId || jsTruthy query) = true →
      (k1, call1) ∈ fetchTasks videoId channelId query (splitFields fieldsParam) →
      settle k1 call1 = .error m1 →
      (k2, call2) ∈ fetchTasks videoId channelId query (splitFields fieldsParam) →
      settle k2 call2 = .ok p2 →
      ∃ res, (fetchHandler α videoId channelId query fieldsParam settle).1 = .ok res ∧
        res.map Prod.fst
          = (fetchTasks videoId channelId query (splitFields fieldsParam)).map Prod.fst ∧
        (∀ (k : String) (call : UpstreamCall) (p : α),
          (k, call) ∈ fetchTasks videoId channelId query (splitFields fieldsParam) →
          settle k call = .ok p → (k, FieldResult.ok p) ∈ res) ∧
        (∀ (k : String) (call : UpstreamCall) (m : Option String),
          (k, call) ∈ fetchTasks videoId channelId query (splitFields fieldsParam) →
          settle k call = .error m →
          (k, FieldResult.err ("Failed to fetch " ++ k) (jsOr m "Unknown error")) ∈ res) ∧
        (k1, FieldResult.err ("Failed to fetch " ++ k1) (jsOr m1 "Unknown error")) ∈ res ∧
        (k2, FieldResult.ok p2) ∈ res := by
  intro α videoId channelId query fieldsParam settle k1 call1 m1 k2 call2 p2
    hvalid hk1 hs1 hk2 hs2
  have hne : fetchTasks videoId channelId query (splitFields fieldsParam) ≠ [] :=
    List.ne_nil_of_mem hk1
  have hok : ∀ (k : String) (call : UpstreamCall) (p : α),
      (k, call) ∈ fetchTasks videoId channelId query (splitFields fieldsParam) →
      settle k call = .ok p →
      (k, FieldResult.ok p) ∈ (fetchTasks videoId channelId query
        (splitFields fieldsParam)).map fun kc => (kc.1, settleField α kc.1 (settle kc.1 kc.2)) := by
    intro k call p hmem hs
    exact List.mem_map.mpr ⟨(k, call), hmem, by simp [settleField, hs]⟩
  have herr : ∀ (k : String) (call : UpstreamCall) (m : Option String),
      (k, call) ∈ fetchTasks videoId channelId query (splitFields fieldsParam) →
      settle k call = .error m →
      (k, FieldResult.err ("Failed to fetch " ++ k) (jsOr m "Unknown error"))
        ∈ (fetchTasks videoId channelId query
          (splitFields fieldsParam)).map fun kc => (kc.1, settleField α kc.1 (settle kc.1 kc.2)) := by
    intro k call m hmem hs
    exact List.mem_map.mpr ⟨(k, call), hmem, by simp [settleField, hs]⟩
  refine ⟨(fetchTasks videoId channelId query (splitFields fieldsParam)).map
      fun kc => (kc.1, settleField α kc.1 (settle kc.1 kc.2)), ?_, ?_,
    hok, herr, herr k1 call1 m1 hk1 hs1, hok k2 call2 p2 hk2 hs2⟩
  · simp [fetchHandler, hvalid, List.isEmpty_eq_false.mpr hne]
  · simp [List.map_map, Function.comp]

/-- C1: witness — a video id with fields `details,comments`, the details
call failing with message "boom" and the comments call succeeding with
payload `7`. -/
theorem claim_C1_partial_failure_aggregation_witness :
    ∃ res, (fetchHandler Nat (some "abc") none none (some "details,comments")
        (fun k _ => if k = "details" then .error (some "boom") else .ok 7)).1
          = .ok res ∧
      res.map Prod.fst
        = (fetchTasks (some "abc") none none
            (splitFields (some "details,comments"))).map Prod.fst ∧
      (∀ (k : String) (call : UpstreamCall) (p : Nat),
        (k, call) ∈ fetchTasks (some "abc") none none (splitFields (some "details,comments")) →
        (if k = "details" then Except.error (some "boom") else Except.ok 7) = .ok p →
        (k, FieldResult.ok p) ∈ res) ∧
      (∀ (k : String) (call : UpstreamCall) (m : Option String),
        (k, call) ∈ fetchTasks (some "abc") none none (splitFields (some "details,comments")) →
        (if k = "details" then Except.error (some "boom") else Except.ok 7) = .error m →
        (k, FieldResult.err ("Failed to fetch " ++ k) (jsOr m "Unknown error")) ∈ res) ∧
      ("details", FieldResult.err ("Failed to fetch " ++ "details")
        (jsOr (some "boom") "Unknown error")) ∈ res ∧
      ("comments", FieldResult.ok 7) ∈ res := by
  exact claim_C1_partial_failure_aggregation Nat (some "abc") none none
    (some "details,comments") (fun k _ => if k = "details" then .error (some "boom") else .ok 7)
    "details" (.videoDetails "abc") (some "boom") "comments" (.comments "abc") 7
    rfl (by decide) rfl (by decide) rfl

/-- C7: with no identifier supplied the aggregator fails with the
`NoTarget` 400 response and issues zero upstream calls; with identifiers
but no enabled field it fails with the `NoFields` 400 response, again with
zero upstream calls. -/
theorem claim_C7_fast_failures :
    (∀ (α : Type) (videoId channelId query fieldsParam : Option String)
      (settle : String → UpstreamCall → Except (Option String) α),
      (jsTruthy videoId || jsTruthy channelId || jsTruthy query) = false →
      fetchHandler α videoId channelId query fieldsParam settle = (.error .noTarget, [])) ∧
    (∀ (α : Type) (videoId channelId query fieldsParam : Option String)
      (settle : String → UpstreamCall → Except (Option String) α),
      (jsTruthy videoId || jsTruthy channelId || jsTruthy query) = true →
      fetchTasks videoId channelId query (splitFields fieldsParam) = [] →
      fetchHandler α videoId channelId query fieldsParam settle = (.error .noFields, [])) := by
  constructor
  · intro α videoId channelId query fieldsParam settle h
    simp [fetchHandler, h]
  · intro α videoId channelId query fieldsParam settle h htasks
    simp [fetchHandler, h, htasks]

/-- C7: witness — no identifiers at all (even with a fields list) gives
`NoTarget`; a video id with no fields list gives `NoFields`; both with an
empty call list. -/
theorem claim_C7_fast_failures_witness :
    fetchHandler Nat none none none (some "details") (fun _ _ => .ok 0)
      = (.error .noTarget, []) ∧
    fetchHandler Nat (some "abc") none none none (fun _ _ => .ok 0)
      = (.error .noFields, []) := by
  exact ⟨claim_C7_fast_failures.1 Nat none none none (some "details") _ rfl,
    claim_C7_fast_failures.2 Nat (some "abc") none none none _ rfl rfl⟩

theorem fetchTasks_keys (v c q : Option String) (f : List String) :
    (fetchTasks v c q f).map Prod.fst =
      (if jsTruthy v then
        (if f.contains "details" then ["details"] else []) ++
        (if f.contains "comments" then ["comments"] else []) ++
        (if f.contains "transcript" then ["transcript"] else [])
      else []) ++
      (if jsTruthy c && f.contains "channel" then ["channel"] else []) ++
      (if jsTruthy q then ["search_results"] else []) := by
  simp only [fetchTasks, List.map_append, apply_ite (List.map Prod.fst)]
  rfl

/-- C10: in the `/api/fetch` aggregator a truthy `search` parameter enables
`search_results` unconditionally — whether or not any name appears in the
`fields` list — and then the search call is actually issued; `details`,
`comments`, `transcript` and `channel` are each enabled exactly when their
identifier is truthy and their name occurs in `fields`. -/
theorem claim_C10_search_enabled_unconditionally :
    (∀ (videoId channelId query : Option String) (fields : List String),
      ("search_results" ∈ (fetchTasks videoId channelId query fields).map Prod.fst
        ↔ jsTruthy query = true) ∧
      ("details" ∈ (fetchTasks videoId channelId query fields).map Prod.fst
        ↔ jsTruthy videoId = true ∧ fields.contains "details" = true) ∧
      ("comments" ∈ (fetchTasks videoId channelId query fields).map Prod.fst
        ↔ jsTruthy videoId = true ∧ fields.contains "comments" = true) ∧
      ("transcript" ∈ (fetchTasks videoId channelId query fields).map Prod.fst
        ↔ jsTruthy videoId = true ∧ fields.contains "transcript" = true) ∧
      ("channel" ∈ (fetchTasks videoId channelId query fields).map Prod.fst
        ↔ jsTruthy channelId = true ∧ fields.contains "channel" = true)) ∧
    (∀ (α : Type) (videoId channelId query fieldsParam : Option String)
      (settle : String → UpstreamCall → Except (Option String) α),
      jsTruthy query = true →
      UpstreamCall.search (query.getD "")
        ∈ (fetchHandler α videoId channelId query fieldsParam settle).2) := by
  constructor
  · intro videoId channelId query fields
    rw [fetchTasks_keys]
    refine ⟨?_, ?_, ?_, ?_, ?_⟩ <;>
      simp [List.mem_append, List.mem_ite_nil_right, Bool.and_eq_true]
  · intro α videoId channelId query fieldsParam settle hq
    have hsearch : ("search_results", UpstreamCall.search (query.getD ""))
        ∈ fetchTasks videoId channelId query (splitFields fieldsParam) := by
      simp [fetchTasks, List.mem_append, List.mem_ite_nil_right, hq]
    have hvalid : (jsTruthy videoId || jsTruthy channelId || jsTruthy query) = true := by
      simp [hq]
    have hne : fetchTasks videoId channelId query (splitFields fieldsParam) ≠ [] :=
      List.ne_nil_of_mem hsearch
    simp only [fetchHandler, hvalid, Bool.not_true, Bool.false_eq_true, if_neg,
      List.isEmpty_eq_false.mpr hne, ite_false]
    exact List.mem_map.mpr ⟨_, hsearch, rfl⟩

/-- C10: witness — with only a truthy `search` parameter and an unrelated
fields list, the search call is issued. -/
theorem claim_C10_search_enabled_unconditionally_witness :
    jsTruthy (some "cats") = true ∧
    UpstreamCall.search ((some "cats").getD "")
      ∈ (fetchHandler Nat none none (some "cats") (some "details")
          (fun _ _ => .ok 0)).2 := by
  exact ⟨rfl, claim_C10_search_enabled_unconditionally.2 Nat none none (some "cats")
    (some "details") _ rfl⟩

theorem trimCharsL_eq_self (l : List Char) (c d : Char)
    (hhead : l.head? = some c) (hc : isWSChar c = false)
    (hlast : l.getLast? = some d) (hd : isWSChar d = false) :
    trimCharsL l = l := by
  unfold trimCharsL
  have h1 : l.reverse.dropWhile isWSChar = l.reverse := by
    have hr : l.reverse.head? = some d := by rw [List.head?_reverse, hlast]
    cases hrl : l.reverse with
    | nil => rfl
    | cons x xs =>
      rw [hrl] at hr
      simp only [List.head?_cons, Option.some.injEq] at hr
      subst hr
      rw [List.dropWhile_cons, hd]
      simp
  rw [h1, List.reverse_reverse]
  cases hl : l with
  | nil => rfl
  | cons x xs =>
    rw [hl] at hhead
    simp only [List.head?_cons, Option.some.injEq] at hhead
    subst hhead
    rw [List.dropWhile_cons, hc]
    simp

theorem head?_data_append (s t : String) (c : Char) (h : s.data.head? = some c) :
    (s ++ t).data.head? = some c := by
  rw [String.data_append, List.head?_append, h]
  rfl

theorem reportTemplate_head (fmtISO : String → String) (details : VideoDetailsR)
    (chan : ChannelR) (tt ct : String) :
    (reportTemplate fmtISO details chan tt ct).data.head? = some '*' := by
  unfold reportTemplate
  repeat apply head?_data_append
  rfl

theorem reportTemplate_last (fmtISO : String → String) (details : VideoDetailsR)
    (chan : ChannelR) (tt ct : String) :
    (reportTemplate fmtISO details chan tt ct).data.getLast? = some '*' := by
  unfold reportTemplate
  rw [String.data_append, List.getLast?_append]
  have hlit : "\n\n**--- End of Report ---**".data.getLast? = some '*' := by decide
  rw [hlit]
  exact Option.or_some ..

theorem report_keeps_header (fmtISO : String → String) (details : VideoDetailsR)
    (chan : ChannelR) (tt ct : String) :
    "**YouTube Video Analysis Report**".data
      <+: (jsTrim (reportTemplate fmtISO details chan tt ct)).data := by
  have hjt : ∀ s : String, (jsTrim s).data = trimCharsL s.data := fun s => rfl
  rw [hjt]
  rw [trimCharsL_eq_self _ '*' '*' (reportTemplate_head ..) rfl (reportTemplate_last ..) rfl]
  have h1 : "**YouTube Video Analysis Report**".data
      <+: "**YouTube Video Analysis Report**\n\n**1. Basic Information:**\n- **Title:** ".data := by
    decide
  simp only [reportTemplate, String.data_append, List.append_assoc]
  exact h1.trans (List.prefix_append _ _)

/-- C8: a rejected details fetch makes `generateLlmReport` return the
one-line `Fatal Error:` string — non-empty, starting with the fatal-error
marker — without issuing the channel fetch and without rendering any
template section (the output is exactly the fatal string); and details is
the only fatal dependency: with details fulfilled the output always starts
with the report header, whatever the comments and transcript outcomes. -/
theorem claim_C8_details_failure_fatal :
    (∀ (reason : Option String) (cr : Settled CommentsVal) (tr : Settled (List RLine))
       (getChannel : String → Except (Option String) ChannelR) (fmtISO : String → String),
      generateLlmReport (.rejected reason) cr tr getChannel fmtISO
        = ("Fatal Error: " ++ jsOr reason "Could not fetch video details", []) ∧
      jsStartsWith (generateLlmReport (.rejected reason) cr tr getChannel fmtISO).1
        "Fatal Error: " = true ∧
      (generateLlmReport (.rejected reason) cr tr getChannel fmtISO).1 ≠ "") ∧
    (∀ (details : VideoDetailsR) (cr : Settled CommentsVal) (tr : Settled (List RLine))
       (getChannel : String → Except (Option String) ChannelR) (fmtISO : String → String),
      jsStartsWith (generateLlmReport (.fulfilled details) cr tr getChannel fmtISO).1
        "**YouTube Video Analysis Report**" = true) := by
  constructor
  · intro reason cr tr getChannel fmtISO
    refine ⟨rfl, ?_, ?_⟩
    · rw [jsStartsWith, List.isPrefixOf_iff_prefix]
      show "Fatal Error: ".data
        <+: ("Fatal Error: " ++ jsOr reason "Could not fetch video details").data
      rw [String.data_append]
      exact List.prefix_append _ _
    · have h1 : (generateLlmReport (.rejected reason) cr tr getChannel fmtISO).1
          = "Fatal Error: " ++ jsOr reason "Could not fetch video details" := rfl
      rw [h1]
      intro heq
      have hd := congrArg String.data heq
      rw [String.data_append] at hd
      have h13 : "Fatal Error: ".data = 'F' :: "atal Error: ".data := rfl
      have h0 : ("" : String).data = [] := rfl
      rw [h13, h0] at hd
      simp at hd
  · intro details cr tr getChannel fmtISO
    rw [jsStartsWith, List.isPrefixOf_iff_prefix]
    exact report_keeps_header ..

theorem mem_insertByLikes (x : Comment) (l : List Comment) (z : Comment) :
    z ∈ insertByLikes x l ↔ z = x ∨ z ∈ l := by
  induction l with
  | nil => simp [insertByLikes]
  | cons y ys ih =>
    by_cases h : likesKey x < likesKey y <;> simp [insertByLikes, h, ih] <;> tauto

theorem pairwise_insertByLikes (x : Comment) (l : List Comment)
    (h : l.Pairwise fun a b => likesKey b ≤ likesKey a) :
    (insertByLikes x l).Pairwise fun a b => likesKey b ≤ likesKey a := by
  induction l with
  | nil => simp [insertByLikes]
  | cons y ys ih =>
    rcases List.pairwise_cons.mp h with ⟨hy, hys⟩
    by_cases hk : likesKey x < likesKey y
    · simp only [insertByLikes, if_pos hk]
      refine List.pairwise_cons.mpr ⟨?_, ih hys⟩
      intro z hz
      rcases (mem_insertByLikes x ys z).mp hz with rfl | hz
      · exact le_of_lt hk
      · exact hy z hz
    · simp only [insertByLikes, if_neg hk]
      refine List.pairwise_cons.mpr ⟨?_, h⟩
      intro z hz
      rcases List.mem_cons.mp hz with rfl | hz
      · exact le_of_not_lt hk
      · exact le_trans (hy z hz) (le_of_not_lt hk)

theorem filter_insertByLikes (x : Comment) (l : List Comment) (k : Int) :
    (insertByLikes x l).filter (fun c => likesKey c == k)
      = if likesKey x == k then x :: l.filter (fun c => likesKey c == k)
        else l.filter (fun c => likesKey c == k) := by
  induction l with
  | nil => cases h : likesKey x == k <;> simp [insertByLikes, List.filter_cons, h]
  | cons y ys ih =>
    by_cases hk : likesKey x < likesKey y
    · have hxy : ¬(likesKey x == k ∧ likesKey y == k) := by
        rintro ⟨h1, h2⟩
        rw [beq_iff_eq] at h1 h2
        omega
      simp only [insertByLikes, if_pos hk, List.filter_cons, ih]
      by_cases h1 : (likesKey x == k) = true <;> by_cases h2 : (likesKey y == k) = true <;>
        simp_all
    · simp only [insertByLikes, if_neg hk]
      by_cases h1 : (likesKey x == k) = true <;>
        simp [List.filter_cons, h1]

theorem sortByLikesDesc_pairwise (cs : List Comment) :
    (sortByLikesDesc cs).Pairwise fun a b => likesKey b ≤ likesKey a := by
  induction cs with
  | nil => simp [sortByLikesDesc]
  | cons x xs ih => exact pairwise_insertByLikes x _ ih

theorem sortByLikesDesc_stable (cs : List Comment) (k : Int) :
    (sortByLikesDesc cs).filter (fun c => likesKey c == k)
      = cs.filter fun c => likesKey c == k := by
  induction cs with
  | nil => rfl
  | cons x xs ih =>
    rw [sortByLikesDesc, filter_insertByLikes, List.filter_cons, ih]

/-- C9: the report renderer ranks comments by their like count descending
(the sorted sequence is pairwise non-increasing in `likesKey`), the sort is
stable (for every key value, the subsequence of comments carrying that like
count is unchanged), and the rendered comment section is exactly the first
three entries of the sorted sequence, one bullet per comment. -/
theorem claim_C9_stable_comment_ranking :
    (∀ cs : List Comment,
      (sortByLikesDesc cs).Pairwise fun a b => likesKey b ≤ likesKey a) ∧
    (∀ (cs : List Comment) (k : Int),
      (sortByLikesDesc cs).filter (fun c => likesKey c == k)
        = cs.filter fun c => likesKey c == k) ∧
    (∀ cs : List Comment,
      commentsTextOf (.fulfilled ⟨some cs⟩)
        = String.intercalate "\n" (((sortByLikesDesc cs).take 3).map commentBullet)) := by
  exact ⟨sortByLikesDesc_pairwise, sortByLikesDesc_stable, fun cs => rfl⟩

end YT
